import Mathlib

/-!
Verification development for the SCTP-DSAI lesson-management repository.

The repository has two source files:
* `setup_sctp_dsai.py` — a bootstrap script whose `create_sync_script` function
  writes the bash script `scripts/sync-lesson.sh`; the function
  `sync_single_lesson` inside that script is the sync engine proper.
* `dsai_management.py` — the Python management tool (`LessonManager`,
  `LessonMetadata`, `Lesson`), whose `sync_lesson` / `sync_all_lessons` /
  `check_custom_changes` methods and `LessonMetadata.load` / `save` are the
  operations the remaining claims are about.

The filesystem is modelled as an association list from paths (lists of
components, relative to the process working directory, which is the repository
root) to nodes (directory markers or files with string contents).  Shell and
Python filesystem primitives (`find`, `cp -r --parents`, `rm -rf`,
`Path.rglob`, …) are modelled as pure functions on that structure; directory
traversal order is abstracted as the entry order of the association list, and
each `find`/glob enumerates a snapshot of the filesystem taken when it starts.
Glob matching supports the `*` and `?` metacharacters (the character-class
syntax `[...]` is not used anywhere by the repository's patterns).
-/

namespace Dsai

/-- A filesystem path, as a list of components relative to the repo root. -/
abbrev FPath := List String

/-- A filesystem node: a directory marker or a file with its byte content. -/
inductive Node where
  | dir : Node
  | file (content : String) : Node
deriving DecidableEq, Repr

/-- A filesystem: an association list from paths to nodes (first match wins). -/
abbrev FS := List (FPath × Node)

/-- Look up the node stored at a path. -/
def fsFind (fs : FS) (p : FPath) : Option Node :=
  (fs.find? (fun e => decide (e.1 = p))).map (·.2)

/-- Store a node at a path, replacing anything previously there. -/
def fsSet (fs : FS) (p : FPath) (n : Node) : FS :=
  (p, n) :: fs.filter (fun e => decide (e.1 ≠ p))

/-- Store a batch of entries in order. -/
def fsSetMany (fs : FS) (es : List (FPath × Node)) : FS :=
  es.foldl (fun a e => fsSet a e.1 e.2) fs

/-- Model of `rm -rf p`: drop the node at `p` and everything below it. -/
def fsRemoveUnder (fs : FS) (p : FPath) : FS :=
  fs.filter (fun e => !(p.isPrefixOf e.1))

/-- The nonempty prefixes of a path, shortest first. -/
def fsPrefixes (p : FPath) : List FPath :=
  (List.range p.length).map (fun k => p.take (k + 1))

/-- Model of `mkdir -p p`: create directory markers for every missing prefix of `p`. -/
def fsMkdirp (fs : FS) (p : FPath) : FS :=
  (fsPrefixes p).foldl
    (fun a q => match fsFind a q with
      | none => (q, Node.dir) :: a
      | some _ => a) fs

/-- Last component of a path (the file or directory name). -/
def basename (p : FPath) : String := (p.getLast?).getD ""

/-- Glob matching over `*` and `?` (the metacharacters the repository's
preservation patterns use); other characters match literally.  A star
matches an arbitrary run of characters: the remaining pattern may match any
suffix of the string. -/
def globMatch : List Char → List Char → Bool
  | [], s => s.isEmpty
  | '*' :: ps, s => s.tails.any (fun t => globMatch ps t)
  | '?' :: ps, s =>
    match s with
    | [] => false
    | _ :: cs => globMatch ps cs
  | pc :: ps, s =>
    match s with
    | [] => false
    | c :: cs => decide (pc = c) && globMatch ps cs

/-- Split a character list at a separator character. -/
def splitOnChar (sep : Char) : List Char → List (List Char)
  | [] => [[]]
  | c :: rest =>
    let r := splitOnChar sep rest
    if c = sep then [] :: r
    else
      match r with
      | h :: t => (c :: h) :: t
      | [] => [[c]]

/-- The lines of a string (split at newline characters). -/
def splitLines (s : String) : List (List Char) := splitOnChar '\n' s.toList

/-- Containment in the `grep` style: does `needle` occur inside `hay`? -/
def containsSubStr (needle : List Char) : List Char → Bool
  | [] => needle.isEmpty
  | c :: rest => needle.isPrefixOf (c :: rest) || containsSubStr needle rest

/-- The suffix after the last occurrence of the two characters
colon-space, if any: the effect of the sed program substituting the
greedy regex dot-star-colon-space by nothing. -/
def sedAfterColon : List Char → Option (List Char)
  | ':' :: ' ' :: rest => some ((sedAfterColon rest).getD rest)
  | _ :: rest => sedAfterColon rest
  | [] => none

/-- Remove every occurrence of two consecutive asterisks, left to right:
the sed substitution deleting escaped double stars, applied globally. -/
def remStars : List Char → List Char
  | '*' :: '*' :: rest => remStars rest
  | c :: rest => c :: remStars rest
  | [] => []

/-- Content of the file at `p`, if a file is stored there. -/
def fsFileContent (fs : FS) (p : FPath) : Option String :=
  match fsFind fs p with
  | some (Node.file c) => some c
  | _ => none

/-- The shell pipeline extracting the source repository from LESSON_INFO.md:
grep for lines containing "Source Repository", strip everything through the
last colon-space, then delete double stars.  A missing file (grep of nothing)
yields the empty string, as does a file with no matching line. -/
def extractSourceRepo (c : Option String) : String :=
  match c with
  | none => ""
  | some s =>
    let ls := (splitLines s).filter (fun l => containsSubStr "Source Repository".toList l)
    String.intercalate "\n"
      (ls.map (fun l => (remStars ((sedAfterColon l).getD l)).asString))

/-- The PRESERVE_PATTERNS array hard-coded at the top of sync-lesson.sh. -/
def PRESERVE_PATTERNS : List String :=
  ["*.local.*", "*-custom.*", "*-notes.*", "my-*", "custom-*", ".custom-changes",
   "LESSON_INFO.md"]

/-- Model of `find start -name pattern`: every node under `start` (the start point
included) whose name matches the glob pattern.  Paths are reported as emitted
by find: prefixed with the start path, i.e. relative to the working
directory. -/
def findMatches (fs : FS) (start : FPath) (pattern : String) : List FPath :=
  (fs.map (·.1)).filter
    (fun p => start.isPrefixOf p && globMatch pattern.toList (basename p).toList)

/-- Model of `cp -r --parents src destRoot/`: recursively copy the subtree at `src`
to `destRoot ++ src` — the full source path, working-directory relative, is
reproduced under the destination directory (that is what `--parents` does). -/
def cpParentsInto (fs : FS) (src destRoot : FPath) : FS :=
  let sub := fs.filter (fun e => src.isPrefixOf e.1)
  let fs1 := fsMkdirp fs (destRoot ++ src.dropLast)
  fsSetMany fs1 (sub.map (fun e => (destRoot ++ e.1, e.2)))

/-- One iteration of the backup loop: find every node under the lesson
directory matching `pattern` and copy each, with `--parents`, into the backup
directory. -/
def backupPattern (fs : FS) (lessonPath backupDir : FPath) (pattern : String) : FS :=
  (findMatches fs lessonPath pattern).foldl (fun a m => cpParentsInto a m backupDir) fs

/-- The "Remove old content" step: delete every entry directly under the
lesson directory except `.custom-changes` and `LESSON_INFO.md` (find with
mindepth one, maxdepth one, two -not -name filters, rm -rf). -/
def removeOldContent (fs : FS) (lessonPath : FPath) : FS :=
  fs.filter (fun e =>
    !(lessonPath.isPrefixOf e.1 && decide (lessonPath.length < e.1.length) &&
      !(decide (e.1[lessonPath.length]? = some ".custom-changes") ||
        decide (e.1[lessonPath.length]? = some "LESSON_INFO.md"))))

/-- Model of `cp -r srcDir/. destDir/`: copy the contents (dotfiles included) of
`srcDir` into `destDir`, overwriting collisions. -/
def cpContents (fs : FS) (srcDir destDir : FPath) : FS :=
  let sub := fs.filter (fun e => srcDir.isPrefixOf e.1 && decide (srcDir.length < e.1.length))
  fsSetMany fs (sub.map (fun e => (destDir ++ e.1.drop srcDir.length, e.2)))

/-- Model of `cp -r src destDir/` with `destDir` an existing directory: the subtree at
`src` is copied to `destDir/<name of src>`. -/
def cpRecInto (fs : FS) (src destDir : FPath) : FS :=
  let sub := fs.filter (fun e => src.isPrefixOf e.1)
  fsSetMany fs (sub.map (fun e => (destDir ++ [basename src] ++ e.1.drop src.length, e.2)))

/-- The restore step: for each immediate child of the backup directory whose
name is not hidden (the shell glob star skips dot-names), copy it recursively
into the lesson directory. -/
def restoreBackup (fs : FS) (backupDir lessonPath : FPath) : FS :=
  let children :=
    ((fs.filterMap (fun e =>
        if backupDir.isPrefixOf e.1 ∧ e.1.length = backupDir.length + 1 then
          e.1.getLast?
        else none)).filter (fun c => !(decide (c.toList.head? = some '.')))).dedup
  children.foldl (fun a c => cpRecInto a (backupDir ++ [c]) lessonPath) fs

/-- Replace, from the first occurrence of `pat` through the end, by `repl`
(the per-line effect of the sed substitution anchoring at "Last Synced" and
consuming the rest of the line); a list without an occurrence is returned
unchanged. -/
def replFromSub (pat repl : List Char) : List Char → List Char
  | [] => []
  | c :: rest =>
    if pat.isPrefixOf (c :: rest) then repl else c :: replFromSub pat repl rest

/-- The sed command updating the "Last Synced" line of LESSON_INFO.md. -/
def sedLastSynced (date content : String) : String :=
  String.intercalate "\n"
    ((splitLines content).map (fun l =>
      (replFromSub "Last Synced".toList ("Last Synced**: " ++ date).toList l).asString))

/-- Apply the "Update sync date" step to LESSON_INFO.md if it is a file
(sed on a missing file fails and is swallowed by the trailing or-true). -/
def sedInfo (fs : FS) (lessonPath : FPath) (date : String) : FS :=
  match fsFind fs (lessonPath ++ ["LESSON_INFO.md"]) with
  | some (Node.file c) =>
    fsSet fs (lessonPath ++ ["LESSON_INFO.md"]) (Node.file (sedLastSynced date c))
  | _ => fs

/-- The `sync_single_lesson` function of scripts/sync-lesson.sh (the script
written by `create_sync_script` in setup_sctp_dsai.py), step by step:

1. fail (status one) if the lesson directory does not exist;
2. extract SOURCE_REPO from LESSON_INFO.md; fail if it is empty;
3. mkdir the timestamped backup directory inside `.custom-changes`;
4. for each preservation pattern, find matches and cp --parents into it;
5. mktemp a temporary directory and git clone the source into it — the
   clone's exit status is discarded (the pipeline ends in grep and is
   followed by or-true), so a failed clone simply leaves the temporary
   directory empty and the script continues;
6. rm -rf the cloned `.git`;
7. remove the old lesson content except `.custom-changes` / LESSON_INFO.md;
8. copy the temporary directory's contents into the lesson directory;
9. restore: copy the backup directory's visible children into the lesson
   directory;
10. sed the "Last Synced" date in LESSON_INFO.md; rm -rf the temporary
    directory; exit with status zero.

`clone` maps a repository URL to the fetched tree (paths relative to the
clone destination), or `none` when the fetch fails (network, not-found,
timeout).  `tmpDir` is the mktemp result, `ts` the backup timestamp suffix,
`date` the current date.  The returned Bool is the script's success. -/
def sync_single_lesson (fs : FS) (folder : String) (clone : String → Option FS)
    (tmpDir : FPath) (ts date : String) : FS × Bool :=
  let lessonPath : FPath := ["lessons", folder]
  if fsFind fs lessonPath ≠ some Node.dir then (fs, false)
  else
    let sourceRepo := extractSourceRepo (fsFileContent fs (lessonPath ++ ["LESSON_INFO.md"]))
    if sourceRepo = "" then (fs, false)
    else
      let backupDir := lessonPath ++ [".custom-changes", "backup-" ++ ts]
      let fs1 := fsMkdirp fs backupDir
      let fs2 := PRESERVE_PATTERNS.foldl (fun a pat => backupPattern a lessonPath backupDir pat) fs1
      let fs3 := fsMkdirp fs2 tmpDir
      let fs4 := match clone sourceRepo with
        | some tree => fsSetMany fs3 (tree.map (fun e => (tmpDir ++ e.1, e.2)))
        | none => fs3
      let fs5 := fsRemoveUnder fs4 (tmpDir ++ [".git"])
      let fs6 := removeOldContent fs5 lessonPath
      let fs7 := cpContents fs6 tmpDir lessonPath
      let fs8 := restoreBackup fs7 backupDir lessonPath
      let fs9 := sedInfo fs8 lessonPath date
      (fsRemoveUnder fs9 tmpDir, true)

/-!
The Python management tool, dsai_management.py.
-/

/-- The `Lesson` dataclass: one managed lesson record. -/
structure Lesson where
  folder : String
  name : String
  number : String
  source_repo : String
  added_date : String
  last_synced : String
  description : String
  module : String
  has_custom_changes : Bool
deriving DecidableEq, Repr

/-- Property `Lesson.path`: the lesson directory, `Path("lessons") / self.folder`. -/
def Lesson.path (l : Lesson) : FPath := ["lessons", l.folder]

/-- Method `Lesson.exists`: the lesson path exists and is a directory. -/
def lessonExists (fs : FS) (l : Lesson) : Bool :=
  decide (fsFind fs l.path = some Node.dir)

/-- The `LessonMetadata` dataclass: the persisted catalog. -/
structure LessonMetadata where
  lessons : List Lesson
  last_updated : String
  version : String
  preservation_patterns : List String
deriving DecidableEq, Repr

/-- The manager's world: the filesystem, the in-memory catalog
(`self.metadata`) and the value currently stored in the metadata file on disk
(written by `LessonMetadata.save`). -/
structure MgrState where
  fs : FS
  metadata : LessonMetadata
  savedFile : Option LessonMetadata
deriving DecidableEq, Repr

/-- The outcome of one `CommandRunner.run_script` invocation of
scripts/sync-lesson.sh: the (success, output) pair the Python layer
receives from the external script. -/
structure SyncEnv where
  ok : Bool
  out : String
deriving DecidableEq, Repr

/-- Method `LessonManager.sync_lesson` for the lesson at position `i` of the
catalog: fail fast if the lesson directory does not exist; otherwise run the
sync script; on script success set the lesson's `last_synced` to today's date
and save the catalog to disk.  The script's effect on the filesystem is
outside the Python process and is abstracted by `env` (the run_script result);
an index beyond the catalog has no corresponding lesson object and is
modelled as a failed no-op (it never occurs in the program). -/
def sync_lesson (st : MgrState) (i : Nat) (env : SyncEnv) (today : String) :
    MgrState × Bool × String :=
  match st.metadata.lessons[i]? with
  | none => (st, false, "")
  | some l =>
    if !(lessonExists st.fs l) then
      (st, false, "Lesson directory not found: " ++ l.folder)
    else if env.ok then
      let meta' := { st.metadata with
        lessons := st.metadata.lessons.set i { l with last_synced := today } }
      ({ st with metadata := meta', savedFile := some meta' }, true, env.out)
    else
      (st, false, env.out)

/-- The loop body of `LessonManager.sync_all_lessons`: sync the lessons at
the remaining positions in order, incrementing the success or failure
counter after each one. -/
def sync_all_go (envs : Nat → SyncEnv) (today : String) :
    MgrState → List Nat → Nat × Nat → MgrState × Nat × Nat
  | st, [], (s, f) => (st, s, f)
  | st, i :: rest, (s, f) =>
    let r := sync_lesson st i (envs i) today
    if r.2.1 then sync_all_go envs today r.1 rest (s + 1, f)
    else sync_all_go envs today r.1 rest (s, f + 1)

/-- Method `LessonManager.sync_all_lessons`: iterate `sync_lesson` over every lesson
of the catalog in order, counting successes and failures.  `envs i` is the
run_script outcome for the lesson at position `i`. -/
def sync_all_lessons (st : MgrState) (envs : Nat → SyncEnv) (today : String) :
    MgrState × Nat × Nat :=
  sync_all_go envs today st (List.range st.metadata.lessons.length) (0, 0)

/-- Specification-side predicate: does `sync_lesson` succeed for the lesson
at position `i`, judged from the initial state alone — the lesson's directory
exists and the sync script reports success. -/
def syncOneSucceeds (st : MgrState) (envs : Nat → SyncEnv) (i : Nat) : Bool :=
  match st.metadata.lessons[i]? with
  | none => false
  | some l => lessonExists st.fs l && (envs i).ok

/-- Python `str.replace`, scanning left to right over the string and
replacing non-overlapping occurrences of `pat` by `repl`.  The first counter
is the number of characters still to skip because they belonged to an
occurrence already replaced (at a match, the head character is consumed and
the remaining length of the pattern is skipped); an empty pattern is never
used here and is treated as matching nowhere. -/
def replaceGo (pat repl : List Char) : Nat → List Char → List Char
  | _, [] => []
  | skip + 1, _ :: rest => replaceGo pat repl skip rest
  | 0, c :: rest =>
    if pat ≠ [] ∧ pat.isPrefixOf (c :: rest) then
      repl ++ replaceGo pat repl (pat.length - 1) rest
    else
      c :: replaceGo pat repl 0 rest

/-- The call `pattern.replace(star, star)` from check_custom_changes — a no-op kept
for fidelity to the source. -/
def pyReplace (s pat repl : String) : String :=
  (replaceGo pat.toList repl.toList 0 s.toList).asString

/-- Python `str.rstrip` with argument the path separator: drop all trailing
slash characters. -/
def rstripSlash (s : String) : String :=
  ((s.toList.reverse.dropWhile (fun c => decide (c = '/'))).reverse).asString

/-- Python `str.endswith` with argument the path separator. -/
def endsWithSlash (s : String) : Bool := decide (s.toList.getLast? = some '/')

/-- Componentwise glob match of a relative path against pattern components. -/
def matchComps : List (List Char) → FPath → Bool
  | [], [] => true
  | pat :: pats, c :: cs => globMatch pat c.toList && matchComps pats cs
  | _, _ => false

/-- Does the relative path `rel` match the rglob pattern components?
`Path.rglob(p)` is `glob("**/" + p)`: any run of leading components, then the
pattern components matched one-to-one, ending at the path's last component. -/
def relMatchesPat (rel : FPath) (pats : List (List Char)) : Bool :=
  decide (pats.length ≤ rel.length) && matchComps pats (rel.drop (rel.length - pats.length))

/-- Model of `root.rglob(pattern)`: every path strictly below `root` whose trailing
components match the pattern's components (paths reported working-directory
relative, as pathlib yields them). -/
def rglobPaths (fs : FS) (root : FPath) (pats : List (List Char)) : List FPath :=
  (fs.map (·.1)).filter
    (fun p => root.isPrefixOf p && decide (root.length < p.length) &&
      relMatchesPat (p.drop root.length) pats)

/-- Is the node at `p` a file? -/
def fsIsFile (fs : FS) (p : FPath) : Bool :=
  match fsFind fs p with
  | some (Node.file _) => true
  | _ => false

/-- Is the node at `p` a directory? -/
def fsIsDir (fs : FS) (p : FPath) : Bool := decide (fsFind fs p = some Node.dir)

/-- Method `LessonManager.check_custom_changes`: return the empty list if the lesson
directory does not exist; otherwise, for each preservation pattern in order:
a pattern with a trailing separator is stripped of it and rglobbed, keeping
directories; any other pattern is rglobbed (after the no-op star replace),
keeping files; each kept path is appended relative to the lesson path. -/
def check_custom_changes (fs : FS) (patterns : List String) (l : Lesson) : List FPath :=
  if !(lessonExists fs l) then []
  else
    patterns.foldl (fun acc pattern =>
      acc ++
        (if endsWithSlash pattern then
          let pattern := rstripSlash pattern
          ((rglobPaths fs l.path (splitOnChar '/' pattern.toList)).filter
              (fun p => fsIsDir fs p)).map (fun p => p.drop l.path.length)
        else
          ((rglobPaths fs l.path (splitOnChar '/' (pyReplace pattern "*" "*").toList)).filter
              (fun p => fsIsFile fs p)).map (fun p => p.drop l.path.length))) []

/-!
The metadata file, `LessonMetadata.load` / `LessonMetadata.save`
(lessons-metadata.json).  JSON documents are modelled at the value level
(the text serialization of the json module round-trips values exactly);
objects are association lists with distinct keys, as json.load produces.
-/

/-- A JSON value. -/
inductive Json where
  | null : Json
  | bool (b : Bool) : Json
  | str (s : String) : Json
  | num (n : Int) : Json
  | arr (xs : List Json) : Json
  | obj (kvs : List (String × Json)) : Json

/-- Interpret a JSON value as an object's key-value list. -/
def Json.asObj? : Json → Option (List (String × Json))
  | .obj kvs => some kvs
  | _ => none

/-- Interpret a JSON value as an array. -/
def Json.asArr? : Json → Option (List Json)
  | .arr xs => some xs
  | _ => none

/-- Interpret a JSON value as a string. -/
def Json.asStr? : Json → Option String
  | .str s => some s
  | _ => none

/-- Interpret a JSON value as a boolean. -/
def Json.asBool? : Json → Option Bool
  | .bool b => some b
  | _ => none

/-- Python `dict.get(k, d)` on a parsed JSON object. -/
def jsonGet (kvs : List (String × Json)) (k : String) (d : Json) : Json :=
  ((kvs.find? (fun kv => decide (kv.1 = k))).map (·.2)).getD d

/-- Python's list comprehension over a fallible element conversion: convert
each element in order, the first exception aborting the whole load. -/
def optionMapM (f : α → Option β) : List α → Option (List β)
  | [] => some []
  | a :: t => do
    let b ← f a
    let bs ← optionMapM f t
    some (b :: bs)

/-- The field names of the `Lesson` dataclass. -/
def lessonFields : List String :=
  ["folder", "name", "number", "source_repo", "added_date", "last_synced",
   "description", "module", "has_custom_changes"]

/-- The call `Lesson(**lesson_data)`: constructing a Lesson from one parsed record.
The double-star call succeeds exactly when the record's key set equals the
dataclass field set; fields are taken at their declared dataclass types.
`none` models the exception escaping `LessonMetadata.load`. -/
def lessonOfJson (j : Json) : Option Lesson := do
  let kvs ← j.asObj?
  if kvs.all (fun kv => lessonFields.contains kv.1) &&
      lessonFields.all (fun fnm => kvs.any (fun kv => decide (kv.1 = fnm))) then
    let folder ← (jsonGet kvs "folder" Json.null).asStr?
    let name ← (jsonGet kvs "name" Json.null).asStr?
    let number ← (jsonGet kvs "number" Json.null).asStr?
    let source_repo ← (jsonGet kvs "source_repo" Json.null).asStr?
    let added_date ← (jsonGet kvs "added_date" Json.null).asStr?
    let last_synced ← (jsonGet kvs "last_synced" Json.null).asStr?
    let description ← (jsonGet kvs "description" Json.null).asStr?
    let module ← (jsonGet kvs "module" Json.null).asStr?
    let has_custom_changes ← (jsonGet kvs "has_custom_changes" Json.null).asBool?
    some { folder, name, number, source_repo, added_date, last_synced,
           description, module, has_custom_changes }
  else none

/-- The record `vars(lesson)` as emitted by `LessonMetadata.save`. -/
def Lesson.toJson (l : Lesson) : Json :=
  Json.obj
    [("folder", Json.str l.folder), ("name", Json.str l.name),
     ("number", Json.str l.number), ("source_repo", Json.str l.source_repo),
     ("added_date", Json.str l.added_date), ("last_synced", Json.str l.last_synced),
     ("description", Json.str l.description), ("module", Json.str l.module),
     ("has_custom_changes", Json.bool l.has_custom_changes)]

/-- Method `LessonMetadata.load`: a missing file (the FileNotFoundError branch)
yields the default catalog; otherwise the parsed document is read with
`dict.get` defaults for each field, and any failure while interpreting it
(the exception propagating out of the try block) is `none`. -/
def LessonMetadata.load (fileContents : Option Json) : Option LessonMetadata :=
  match fileContents with
  | none =>
    some { lessons := [], last_updated := "", version := "1.0.0",
           preservation_patterns := [] }
  | some j => do
    let kvs ← j.asObj?
    let lessonsJ ← (jsonGet kvs "lessons" (Json.arr [])).asArr?
    let lessons ← optionMapM lessonOfJson lessonsJ
    let last_updated ← (jsonGet kvs "last_updated" (Json.str "")).asStr?
    let version ← (jsonGet kvs "version" (Json.str "1.0.0")).asStr?
    let patternsJ ← (jsonGet kvs "preservation_patterns" (Json.arr [])).asArr?
    let preservation_patterns ← optionMapM Json.asStr? patternsJ
    some { lessons, last_updated, version, preservation_patterns }

/-- Method `LessonMetadata.save`: the document written to the metadata file. -/
def LessonMetadata.save (m : LessonMetadata) : Json :=
  Json.obj
    [("lessons", Json.arr (m.lessons.map Lesson.toJson)),
     ("last_updated", Json.str m.last_updated),
     ("version", Json.str m.version),
     ("preservation_patterns", Json.arr (m.preservation_patterns.map Json.str))]

/-!
Concrete fixtures: a lesson directory with a preserved-pattern file whose
relative name is also shipped by upstream, used to evaluate the sync script
on the two failure scenarios of claims C1 and C2.
-/

/-- A LESSON_INFO.md content carrying the source-repository marker line. -/
def infoContent0 : String :=
  "- **Source Repository**: repoA\n- **Last Synced**: 2024-01-01"

/-- A lesson directory (folder L1) holding an upstream-provided notebook, a
user-preserved local copy, the info file and the reserved backup area. -/
def fs0 : FS :=
  [ (["lessons"], Node.dir),
    (["lessons", "L1"], Node.dir),
    (["lessons", "L1", "LESSON_INFO.md"], Node.file infoContent0),
    (["lessons", "L1", "intro.ipynb"], Node.file "UPSTREAM-OLD"),
    (["lessons", "L1", "notebook.local.ipynb"], Node.file "USER"),
    (["lessons", "L1", ".custom-changes"], Node.dir) ]

/-- The fresh upstream tree: it ships a changed intro.ipynb and also a file
with the same relative name as the preserved one. -/
def upstreamTree0 : FS :=
  [ (["intro.ipynb"], Node.file "UPSTREAM-NEW"),
    (["notebook.local.ipynb"], Node.file "UPSTREAM-LOCAL") ]

/-- A fetch oracle for which the clone of repoA succeeds. -/
def cloneOK : String → Option FS :=
  fun r => if r = "repoA" then some upstreamTree0 else none

/-- A fetch oracle for which every clone fails (network, not-found,
timeout). -/
def cloneFail : String → Option FS := fun _ => none

/-- C1: the claim states that when a preserved-pattern path and an upstream
path share the same relative name, the preserved (pre-sync) content is what
the lesson directory holds at that path after a successful sync, restore
being the last write.  The code refutes this: the backup step copies matches
with cp --parents, so the backup reproduces the working-directory-relative
path (lessons/L1/...) under the backup directory, and the restore step
(cp -r of the backup's children into the lesson directory) therefore lands
the preserved content at the nested path lessons/L1/lessons/L1/... instead
of at the original relative path.  At the shared name, the upstream version
survives as the last write; the preserved USER content ends up misplaced. -/
theorem sync_script_conflict_upstream_wins :
    (sync_single_lesson fs0 "L1" cloneOK ["tmp1"] "TS" "2024-06-01").2 = true ∧
    fsFind fs0 ["lessons", "L1", "notebook.local.ipynb"] = some (Node.file "USER") ∧
    fsFind (sync_single_lesson fs0 "L1" cloneOK ["tmp1"] "TS" "2024-06-01").1
        ["lessons", "L1", "notebook.local.ipynb"] = some (Node.file "UPSTREAM-LOCAL") ∧
    fsFind (sync_single_lesson fs0 "L1" cloneOK ["tmp1"] "TS" "2024-06-01").1
        ["lessons", "L1", "lessons", "L1", "notebook.local.ipynb"] =
      some (Node.file "USER") := by
  refine ⟨rfl, rfl, rfl, rfl⟩

/-- C2: the claim states that a fetch failure aborts the sync before any
destructive step, leaving the lesson directory byte-identical and lastSynced
unchanged.  The code refutes this: the clone pipeline ends in grep and is
followed by or-true, so a failed clone is not detected; the script proceeds
to delete the lesson's content, copies nothing from the empty temporary
directory, rewrites the Last Synced marker, and exits with success (which
then makes the Python caller update `last_synced` as well). -/
theorem sync_script_fetch_failure_destroys :
    (sync_single_lesson fs0 "L1" cloneFail ["tmp1"] "TS" "2024-06-01").2 = true ∧
    fsFind fs0 ["lessons", "L1", "intro.ipynb"] = some (Node.file "UPSTREAM-OLD") ∧
    fsFind (sync_single_lesson fs0 "L1" cloneFail ["tmp1"] "TS" "2024-06-01").1
        ["lessons", "L1", "intro.ipynb"] = none ∧
    fsFind (sync_single_lesson fs0 "L1" cloneFail ["tmp1"] "TS" "2024-06-01").1
        ["lessons", "L1", "notebook.local.ipynb"] = none ∧
    fsFind (sync_single_lesson fs0 "L1" cloneFail ["tmp1"] "TS" "2024-06-01").1
        ["lessons", "L1", "LESSON_INFO.md"] =
      some (Node.file "- **Source Repository**: repoA\n- **Last Synced**: 2024-06-01") := by
  refine ⟨rfl, rfl, rfl, rfl, rfl⟩

/-- C9: loading the catalog when the metadata file does not exist returns
the default catalog (no lessons, empty last-updated, version 1.0.0, no
preservation patterns) instead of raising. -/
theorem load_missing_file_default :
    LessonMetadata.load none =
      some { lessons := [], last_updated := "", version := "1.0.0",
             preservation_patterns := [] } := rfl

/-- Reconstructing a lesson from its own serialized record gives it back. -/
theorem lessonOfJson_toJson (l : Lesson) : lessonOfJson (Lesson.toJson l) = some l := rfl

/-- Serializing then parsing a lesson list gives it back. -/
theorem mapM_lessonOfJson (ls : List Lesson) :
    optionMapM lessonOfJson (ls.map Lesson.toJson) = some ls := by
  induction ls with
  | nil => rfl
  | cons a t ih => simp [optionMapM, lessonOfJson_toJson, ih]

/-- Serializing then parsing a string list gives it back. -/
theorem mapM_asStr (ps : List String) :
    optionMapM Json.asStr? (ps.map Json.str) = some ps := by
  induction ps with
  | nil => rfl
  | cons a t ih => simp [optionMapM, Json.asStr?, ih]

/-- C10: saving any catalog value and loading it back yields the original
catalog, whatever the lessons' fields, version, last-updated timestamp and
preservation patterns are. -/
theorem load_save_roundtrip (m : LessonMetadata) :
    LessonMetadata.load (some (LessonMetadata.save m)) = some m := by
  simp [LessonMetadata.load, LessonMetadata.save, jsonGet, Json.asObj?,
        Json.asArr?, Json.asStr?, mapM_lessonOfJson, mapM_asStr]

/-- C3: syncing a lesson whose directory does not exist fails fast with the
directory-not-found diagnostic and mutates nothing: the returned state (the
in-memory catalog, the metadata file on disk and the filesystem) is exactly
the input state. -/
theorem sync_lesson_missing_dir (st : MgrState) (i : Nat) (env : SyncEnv)
    (today : String) (l : Lesson)
    (hl : st.metadata.lessons[i]? = some l)
    (hdir : lessonExists st.fs l = false) :
    sync_lesson st i env today =
      (st, false, "Lesson directory not found: " ++ l.folder) := by
  simp [sync_lesson, hl, hdir]

/-- A one-lesson state whose lesson directory is absent from the filesystem. -/
def stMissing : MgrState :=
  { fs := [(["lessons"], Node.dir)],
    metadata :=
      { lessons :=
          [{ folder := "L9", name := "nlp", number := "3_9", source_repo := "repoB",
             added_date := "2024-01-01", last_synced := "2024-01-01",
             description := "NLP", module := "3", has_custom_changes := false }],
        last_updated := "", version := "1.0.0", preservation_patterns := [] },
    savedFile := none }

/-- Witness for C3 at a concrete state. -/
theorem sync_lesson_missing_dir_witness :
    sync_lesson stMissing 0 { ok := true, out := "o" } "2024-06-01" =
      (stMissing, false, "Lesson directory not found: L9") :=
  sync_lesson_missing_dir stMissing 0 { ok := true, out := "o" } "2024-06-01"
    { folder := "L9", name := "nlp", number := "3_9", source_repo := "repoB",
      added_date := "2024-01-01", last_synced := "2024-01-01",
      description := "NLP", module := "3", has_custom_changes := false }
    rfl rfl

/-- C4: across a sync operation, the lesson's `last_synced` never decreases
(given that the stored date does not lie in the clock's future); it is set
to today's date — with the catalog then saved to disk — exactly when the
sync succeeds, and is left unchanged together with the whole state when the
sync fails. -/
theorem sync_lesson_last_synced (st : MgrState) (i : Nat) (env : SyncEnv)
    (today : String) (l : Lesson)
    (hl : st.metadata.lessons[i]? = some l)
    (hclock : l.last_synced ≤ today) :
    ((sync_lesson st i env today).2.1 = true →
      (sync_lesson st i env today).1.metadata.lessons[i]?.map Lesson.last_synced =
          some today ∧
      (sync_lesson st i env today).1.savedFile =
          some (sync_lesson st i env today).1.metadata) ∧
    ((sync_lesson st i env today).2.1 = false →
      (sync_lesson st i env today).1 = st) ∧
    (∀ l2 : Lesson, (sync_lesson st i env today).1.metadata.lessons[i]? = some l2 →
      l.last_synced ≤ l2.last_synced) := by
  have hi : i < st.metadata.lessons.length := (List.getElem?_eq_some_iff.mp hl).1
  cases hex : lessonExists st.fs l with
  | false =>
    have hr : sync_lesson st i env today =
        (st, false, "Lesson directory not found: " ++ l.folder) := by
      simp [sync_lesson, hl, hex]
    rw [hr]
    refine ⟨fun h => Bool.noConfusion h, fun _ => rfl, fun l2 h2 => ?_⟩
    rw [hl] at h2
    cases h2
    exact le_refl _
  | true =>
    cases hok : env.ok with
    | false =>
      have hr : sync_lesson st i env today = (st, false, env.out) := by
        simp [sync_lesson, hl, hex, hok]
      rw [hr]
      refine ⟨fun h => Bool.noConfusion h, fun _ => rfl, fun l2 h2 => ?_⟩
      rw [hl] at h2
      cases h2
      exact le_refl _
    | true =>
      have hr : sync_lesson st i env today =
          ({ st with
              metadata := { st.metadata with
                lessons := st.metadata.lessons.set i { l with last_synced := today } },
              savedFile := some { st.metadata with
                lessons := st.metadata.lessons.set i { l with last_synced := today } } },
            true, env.out) := by
        simp [sync_lesson, hl, hex, hok]
      rw [hr]
      refine ⟨fun _ => ⟨?_, rfl⟩, fun h => Bool.noConfusion h, fun l2 h2 => ?_⟩
      · show ((st.metadata.lessons.set i { l with last_synced := today })[i]?).map
            Lesson.last_synced = some today
        rw [List.getElem?_set_self hi]
        rfl
      · replace h2 : (st.metadata.lessons.set i { l with last_synced := today })[i]? =
            some l2 := h2
        rw [List.getElem?_set_self hi] at h2
        cases h2
        exact hclock

/-- A one-lesson state whose lesson directory exists. -/
def stPresent : MgrState :=
  { fs := [(["lessons"], Node.dir), (["lessons", "L9"], Node.dir)],
    metadata :=
      { lessons :=
          [{ folder := "L9", name := "nlp", number := "3_9", source_repo := "repoB",
             added_date := "2024-01-01", last_synced := "2024-01-01",
             description := "NLP", module := "3", has_custom_changes := false }],
        last_updated := "", version := "1.0.0", preservation_patterns := [] },
    savedFile := none }

/-- Witness for C4 at a concrete state with a successful script run. -/
theorem sync_lesson_last_synced_witness :
    ((sync_lesson stPresent 0 { ok := true, out := "o" } "2024-06-01").2.1 = true →
      (sync_lesson stPresent 0 { ok := true, out := "o" } "2024-06-01").1.metadata.lessons[0]?.map
          Lesson.last_synced = some "2024-06-01" ∧
      (sync_lesson stPresent 0 { ok := true, out := "o" } "2024-06-01").1.savedFile =
        some (sync_lesson stPresent 0 { ok := true, out := "o" } "2024-06-01").1.metadata) ∧
    ((sync_lesson stPresent 0 { ok := true, out := "o" } "2024-06-01").2.1 = false →
      (sync_lesson stPresent 0 { ok := true, out := "o" } "2024-06-01").1 = stPresent) ∧
    (∀ l2 : Lesson,
      (sync_lesson stPresent 0 { ok := true, out := "o" } "2024-06-01").1.metadata.lessons[0]? =
          some l2 → "2024-01-01" ≤ l2.last_synced) :=
  sync_lesson_last_synced stPresent 0 { ok := true, out := "o" } "2024-06-01"
    { folder := "L9", name := "nlp", number := "3_9", source_repo := "repoB",
      added_date := "2024-01-01", last_synced := "2024-01-01",
      description := "NLP", module := "3", has_custom_changes := false }
    rfl
    (by rw [String.le_iff_toList_le]; exact le_of_lt (by decide))

/-- A sync of one lesson changes neither the filesystem view of the Python
process nor any lesson's folder identifier (only `last_synced` can change). -/
theorem sync_lesson_view (st : MgrState) (i : Nat) (env : SyncEnv) (today : String) :
    (sync_lesson st i env today).1.fs = st.fs ∧
    ∀ j : Nat, (sync_lesson st i env today).1.metadata.lessons[j]?.map Lesson.folder =
      st.metadata.lessons[j]?.map Lesson.folder := by
  cases hl : st.metadata.lessons[i]? with
  | none => simp [sync_lesson, hl]
  | some l =>
    have hi : i < st.metadata.lessons.length := (List.getElem?_eq_some_iff.mp hl).1
    cases hex : lessonExists st.fs l with
    | false => simp [sync_lesson, hl, hex]
    | true =>
      cases hok : env.ok with
      | false => simp [sync_lesson, hl, hex, hok]
      | true =>
        refine ⟨by simp [sync_lesson, hl, hex, hok], fun j => ?_⟩
        have hred :
            (sync_lesson st i env today).1.metadata.lessons =
              st.metadata.lessons.set i { l with last_synced := today } := by
          simp [sync_lesson, hl, hex, hok]
        rw [hred]
        by_cases hij : i = j
        · subst hij
          rw [List.getElem?_set_self hi, hl]
          rfl
        · rw [List.getElem?_set_ne hij]

/-- The success bit of one `sync_lesson` run, as a function of the lesson's
existence check and the script's outcome. -/
theorem sync_lesson_ok_iff (st : MgrState) (i : Nat) (env : SyncEnv) (today : String) :
    (sync_lesson st i env today).2.1 =
      (match st.metadata.lessons[i]? with
        | none => false
        | some l => lessonExists st.fs l && env.ok) := by
  cases hl : st.metadata.lessons[i]? with
  | none => simp [sync_lesson, hl]
  | some l =>
    cases hex : lessonExists st.fs l <;> cases hok : env.ok <;>
      simp [sync_lesson, hl, hex, hok]

/-- Predicate `syncOneSucceeds` only depends on the filesystem and the lesson's folder. -/
theorem syncOneSucceeds_congr (st st0 : MgrState) (envs : Nat → SyncEnv) (j : Nat)
    (hfs : st.fs = st0.fs)
    (hfold : st.metadata.lessons[j]?.map Lesson.folder =
      st0.metadata.lessons[j]?.map Lesson.folder) :
    syncOneSucceeds st envs j = syncOneSucceeds st0 envs j := by
  cases h1 : st.metadata.lessons[j]? with
  | none =>
    cases h2 : st0.metadata.lessons[j]? with
    | none => simp [syncOneSucceeds, h1, h2]
    | some b => rw [h1, h2] at hfold; cases hfold
  | some a =>
    cases h2 : st0.metadata.lessons[j]? with
    | none => rw [h1, h2] at hfold; cases hfold
    | some b =>
      rw [h1, h2] at hfold
      have hf : a.folder = b.folder := by
        simpa using hfold
      simp only [syncOneSucceeds, h1, h2]
      unfold lessonExists Lesson.path
      rw [hfs, hf]

/-- Splitting a list by a boolean predicate preserves its length. -/
theorem length_filter_add_length_filter_not (p : Nat → Bool) (l : List Nat) :
    (l.filter p).length + (l.filter (fun i => !(p i))).length = l.length := by
  induction l with
  | nil => rfl
  | cons a t ih =>
    cases h : p a <;> simp [List.filter_cons, h, ← ih] <;> omega

/-- The loop of sync_all_lessons counts, on top of its starting counters,
exactly the per-lesson outcomes of the remaining positions, each outcome
judged independently from the initial state. -/
theorem sync_all_go_counts (envs : Nat → SyncEnv) (today : String) (st0 : MgrState)
    (idxs : List Nat) :
    ∀ (st : MgrState) (s f : Nat),
      st.fs = st0.fs →
      (∀ j : Nat, st.metadata.lessons[j]?.map Lesson.folder =
        st0.metadata.lessons[j]?.map Lesson.folder) →
      (sync_all_go envs today st idxs (s, f)).2.1 =
          s + (idxs.filter (fun i => syncOneSucceeds st0 envs i)).length ∧
      (sync_all_go envs today st idxs (s, f)).2.2 =
          f + (idxs.filter (fun i => !(syncOneSucceeds st0 envs i))).length := by
  induction idxs with
  | nil => intro st s f _ _; simp [sync_all_go]
  | cons i rest ih =>
    intro st s f hfs hfold
    have hview := sync_lesson_view st i (envs i) today
    have hok : (sync_lesson st i (envs i) today).2.1 = syncOneSucceeds st0 envs i := by
      rw [sync_lesson_ok_iff]
      rw [← syncOneSucceeds_congr st st0 envs i hfs (hfold i)]
      rfl
    cases hsucc : syncOneSucceeds st0 envs i with
    | true =>
      have h1 : (sync_lesson st i (envs i) today).2.1 = true := by rw [hok, hsucc]
      have hr := ih (sync_lesson st i (envs i) today).1 (s + 1) f
        (hview.1.trans hfs) (fun j => (hview.2 j).trans (hfold j))
      have hp : List.filter (fun j => syncOneSucceeds st0 envs j) (i :: rest) =
          i :: List.filter (fun j => syncOneSucceeds st0 envs j) rest := by
        simp [List.filter_cons, hsucc]
      have hn : List.filter (fun j => !(syncOneSucceeds st0 envs j)) (i :: rest) =
          List.filter (fun j => !(syncOneSucceeds st0 envs j)) rest := by
        simp [List.filter_cons, hsucc]
      rw [show sync_all_go envs today st (i :: rest) (s, f) =
            sync_all_go envs today (sync_lesson st i (envs i) today).1 rest (s + 1, f) from by
          simp [sync_all_go, h1]]
      rw [hp, hn]
      simp only [List.length_cons]
      exact ⟨by rw [hr.1]; omega, by rw [hr.2]⟩
    | false =>
      have h1 : (sync_lesson st i (envs i) today).2.1 = false := by rw [hok, hsucc]
      have hr := ih (sync_lesson st i (envs i) today).1 s (f + 1)
        (hview.1.trans hfs) (fun j => (hview.2 j).trans (hfold j))
      have hp : List.filter (fun j => syncOneSucceeds st0 envs j) (i :: rest) =
          List.filter (fun j => syncOneSucceeds st0 envs j) rest := by
        simp [List.filter_cons, hsucc]
      have hn : List.filter (fun j => !(syncOneSucceeds st0 envs j)) (i :: rest) =
          i :: List.filter (fun j => !(syncOneSucceeds st0 envs j)) rest := by
        simp [List.filter_cons, hsucc]
      rw [show sync_all_go envs today st (i :: rest) (s, f) =
            sync_all_go envs today (sync_lesson st i (envs i) today).1 rest (s, f + 1) from by
          simp [sync_all_go, h1]]
      rw [hp, hn]
      simp only [List.length_cons]
      exact ⟨by rw [hr.1], by rw [hr.2]; omega⟩

/-- C5: sync_all_lessons applies sync_lesson to each lesson of the catalog in
order and keeps going after per-lesson failures: it returns the pair whose
first component counts exactly the positions whose independent one-lesson
sync succeeds, and whose two components always add up to the number of
lessons in the catalog (every lesson is attempted). -/
theorem sync_all_lessons_counts (st : MgrState) (envs : Nat → SyncEnv) (today : String) :
    (sync_all_lessons st envs today).2.1 =
        ((List.range st.metadata.lessons.length).filter
          (fun i => syncOneSucceeds st envs i)).length ∧
    (sync_all_lessons st envs today).2.1 + (sync_all_lessons st envs today).2.2 =
        st.metadata.lessons.length := by
  have h := sync_all_go_counts envs today st (List.range st.metadata.lessons.length)
    st 0 0 rfl (fun _ => rfl)
  unfold sync_all_lessons
  refine ⟨by rw [h.1]; omega, ?_⟩
  rw [h.1, h.2]
  have := length_filter_add_length_filter_not (fun i => syncOneSucceeds st envs i)
    (List.range st.metadata.lessons.length)
  rw [List.length_range] at this
  omega

/-!
The Preservation Matcher specification (claims C6-C8).

`check_custom_changes` applies each pattern by a recursive glob over the
lesson directory.  The faithful region of the embedding is the pattern
language the repository actually uses: single-component glob patterns
(no embedded path separator once a trailing separator is stripped, nonempty,
and not the special recursive-wildcard component of two stars, which pathlib
treats differently from a plain glob).  `WellFormedPat` carves out exactly
that region.
-/

/-- A preservation pattern in the single-component glob language used by the
repository: after stripping trailing separators it is nonempty, contains no
separator, and is not the special recursive-wildcard component. -/
def WellFormedPat (pat : String) : Prop :=
  (rstripSlash pat).toList ≠ [] ∧ '/' ∉ (rstripSlash pat).toList ∧ rstripSlash pat ≠ "**"

instance (pat : String) : Decidable (WellFormedPat pat) := by
  unfold WellFormedPat
  infer_instance

/-- Folding append over a list is appending the flat map. -/
theorem foldl_append_eq {α β : Type} (F : α → List β) (l : List α) (init : List β) :
    l.foldl (fun acc x => acc ++ F x) init = init ++ l.flatMap F := by
  induction l generalizing init with
  | nil => simp
  | cons a t ih => simp [ih, List.append_assoc]

/-- On an existing lesson directory, check_custom_changes is the
concatenation of the per-pattern results. -/
theorem check_custom_changes_eq_flatMap (fs : FS) (patterns : List String) (l : Lesson)
    (hex : lessonExists fs l = true) :
    check_custom_changes fs patterns l =
      patterns.flatMap (fun pattern =>
        if endsWithSlash pattern then
          ((rglobPaths fs l.path (splitOnChar '/' (rstripSlash pattern).toList)).filter
              (fun p => fsIsDir fs p)).map (fun p => p.drop l.path.length)
        else
          ((rglobPaths fs l.path (splitOnChar '/' (pyReplace pattern "*" "*").toList)).filter
              (fun p => fsIsFile fs p)).map (fun p => p.drop l.path.length)) := by
  unfold check_custom_changes
  rw [hex]
  simp only [Bool.not_true, Bool.false_eq_true, if_false]
  rw [foldl_append_eq]
  simp only [List.nil_append]

/-- A path bound in the filesystem occurs among the filesystem's paths. -/
theorem fsFind_mem_paths {fs : FS} {p : FPath} {n : Node} (h : fsFind fs p = some n) :
    p ∈ fs.map (fun e => e.1) := by
  unfold fsFind at h
  cases hf : fs.find? (fun e => decide (e.1 = p)) with
  | none => rw [hf] at h; cases h
  | some e =>
    have hm : e ∈ fs := List.mem_of_find?_eq_some hf
    have hep : e.1 = p := by
      have he := List.find?_some hf
      simpa using he
    exact hep ▸ List.mem_map_of_mem (fun e => e.1) hm

/-- The directory test as a proposition on the stored node. -/
theorem fsIsDir_eq_true_iff {fs : FS} {p : FPath} :
    fsIsDir fs p = true ↔ fsFind fs p = some Node.dir := by
  unfold fsIsDir
  exact decide_eq_true_iff

/-- The file test as a proposition on the stored node. -/
theorem fsIsFile_eq_true_iff {fs : FS} {p : FPath} :
    fsIsFile fs p = true ↔ ∃ c, fsFind fs p = some (Node.file c) := by
  unfold fsIsFile
  cases h : fsFind fs p with
  | none => simp
  | some n => cases n with
    | dir => simp
    | file c => simp

/-- Dropping all but the last element of a nonempty list leaves exactly its
last element. -/
theorem drop_length_sub_one : ∀ (rel : FPath), rel ≠ [] →
    rel.drop (rel.length - 1) = [(rel.getLast?).getD ""]
  | [], h => absurd rfl h
  | [_], _ => rfl
  | a :: b :: u, _ => by
    have ih := drop_length_sub_one (b :: u) (by simp)
    have hlen : (a :: b :: u).length - 1 = u.length + 1 := by simp
    have hlen2 : (b :: u).length - 1 = u.length := by simp
    rw [hlen, List.drop_succ_cons, List.getLast?_cons_cons, ← hlen2]
    exact ih

/-- For a single pattern component, the rglob condition is exactly a glob
match of the path's last component. -/
theorem relMatchesPat_single (rel : FPath) (c : List Char) (h : rel ≠ []) :
    relMatchesPat rel [c] = globMatch c (basename rel).toList := by
  have hp : 0 < rel.length := List.length_pos.mpr h
  have h1 : decide (([c] : List (List Char)).length ≤ rel.length) = true := by
    simp
    omega
  unfold relMatchesPat
  rw [h1, Bool.true_and]
  show matchComps [c] (rel.drop (rel.length - 1)) = _
  rw [drop_length_sub_one rel h]
  simp [matchComps, basename]

/-- A separator-free character list splits into itself. -/
theorem splitOnChar_no_sep (sep : Char) : ∀ (cs : List Char), sep ∉ cs →
    splitOnChar sep cs = [cs]
  | [], _ => rfl
  | c :: t, h => by
    have hc : ¬ (c = sep) := fun hh => h (hh ▸ List.mem_cons_self c t)
    have ht := splitOnChar_no_sep sep t (fun hm => h (List.mem_cons_of_mem c hm))
    simp [splitOnChar, hc, ht]

/-- Stripping trailing separators from a string that does not end in one is
the identity. -/
theorem rstripSlash_no_slash (s : String) (h : endsWithSlash s = false) :
    rstripSlash s = s := by
  have hne : s.toList.getLast? ≠ some '/' := by
    intro hc
    rw [endsWithSlash, hc] at h
    simp at h
  have key : s.toList.reverse.dropWhile (fun c => decide (c = '/')) = s.toList.reverse := by
    cases hr : s.toList.reverse with
    | nil => rfl
    | cons c t =>
      have hc : ¬ (c = '/') := by
        intro hcc
        apply hne
        rw [← List.head?_reverse, hr, hcc]
        rfl
      rw [List.dropWhile_cons, if_neg (by simpa using hc)]
  unfold rstripSlash
  rw [key, List.reverse_reverse, String.asString_toList]

/-- Replacing a star by a star is the identity. -/
theorem replaceGo_star (l : List Char) : replaceGo ['*'] ['*'] 0 l = l := by
  induction l with
  | nil => rfl
  | cons c t ih =>
    unfold replaceGo
    by_cases hc : c = '*'
    · subst hc
      have hpre : List.isPrefixOf ['*'] ('*' :: t) = true := by
        rw [List.isPrefixOf_iff_prefix]
        exact ⟨t, rfl⟩
      rw [if_pos ⟨by simp, hpre⟩]
      show '*' :: replaceGo ['*'] ['*'] 0 t = '*' :: t
      rw [ih]
    · rw [if_neg ?_]
      · rw [ih]
      · rintro ⟨-, hpre⟩
        obtain ⟨t', ht'⟩ := List.isPrefixOf_iff_prefix.mp hpre
        have : '*' = c := by injection ht' with h1 _
        exact hc this.symm

/-- The no-op star replace of check_custom_changes, as an identity. -/
theorem pyReplace_star (s : String) : pyReplace s "*" "*" = s := by
  unfold pyReplace
  rw [show "*".toList = ['*'] from rfl, replaceGo_star, String.asString_toList]

/-- Membership in one pattern's rglob-filter-map result, for a
single-component pattern: exactly the nonempty relative paths below the root
whose node passes the filter and whose name matches the component. -/
theorem mem_rglob_filter_map (fs : FS) (root : FPath) (c : List Char) (rel : FPath)
    (g : FPath → Bool) :
    (rel ∈ ((rglobPaths fs root [c]).filter g).map (fun p => p.drop root.length)) ↔
      (rel ≠ [] ∧ (root ++ rel) ∈ fs.map (fun e => e.1) ∧ g (root ++ rel) = true ∧
        globMatch c (basename rel).toList = true) := by
  constructor
  · intro h
    rw [List.mem_map] at h
    obtain ⟨p, hp, hrel⟩ := h
    rw [List.mem_filter] at hp
    obtain ⟨hpg, hg⟩ := hp
    unfold rglobPaths at hpg
    rw [List.mem_filter] at hpg
    obtain ⟨hmem, hcond⟩ := hpg
    simp only [Bool.and_eq_true, decide_eq_true_eq] at hcond
    obtain ⟨⟨hpre, hlen⟩, hmat⟩ := hcond
    obtain ⟨t, ht⟩ := List.isPrefixOf_iff_prefix.mp hpre
    have hdrop : p.drop root.length = t := by
      rw [← ht, List.drop_left]
    have hpeq : p = root ++ rel := by
      rw [← hrel, hdrop, ← ht]
    have hne : rel ≠ [] := by
      intro hcon
      rw [← hrel, List.drop_eq_nil_iff] at hcon
      omega
    refine ⟨hne, hpeq ▸ hmem, hpeq ▸ hg, ?_⟩
    rw [← hrel] at hne ⊢
    rw [← relMatchesPat_single (p.drop root.length) c hne]
    exact hmat
  · rintro ⟨hne, hmem, hg, hglob⟩
    rw [List.mem_map]
    refine ⟨root ++ rel, ?_, List.drop_left root rel⟩
    rw [List.mem_filter]
    refine ⟨?_, hg⟩
    unfold rglobPaths
    rw [List.mem_filter]
    refine ⟨hmem, ?_⟩
    simp only [Bool.and_eq_true, decide_eq_true_eq]
    refine ⟨⟨List.isPrefixOf_iff_prefix.mpr (List.prefix_append root rel), ?_⟩, ?_⟩
    · rw [List.length_append]
      have := List.length_pos.mpr hne
      omega
    · rw [List.drop_left, relMatchesPat_single rel c hne]
      exact hglob

/-- C6: on an existing lesson directory and over the repository's
single-component glob pattern language, the Preservation Matcher result
contains a relative path if and only if at least one pattern matches it:
a trailing-separator pattern matches the names of directories anywhere under
the root (recursively), any other pattern matches the names of files
anywhere under the root, and membership is reported relative to the root. -/
theorem check_custom_changes_spec (fs : FS) (patterns : List String) (l : Lesson)
    (rel : FPath)
    (hex : lessonExists fs l = true)
    (hw : ∀ pat ∈ patterns, WellFormedPat pat) :
    rel ∈ check_custom_changes fs patterns l ↔
      (rel ≠ [] ∧ ∃ pat ∈ patterns,
        ((endsWithSlash pat = true ∧ fsIsDir fs (l.path ++ rel) = true ∧
            globMatch (rstripSlash pat).toList (basename rel).toList = true) ∨
         (endsWithSlash pat = false ∧ fsIsFile fs (l.path ++ rel) = true ∧
            globMatch pat.toList (basename rel).toList = true))) := by
  rw [check_custom_changes_eq_flatMap fs patterns l hex, List.mem_flatMap]
  constructor
  · rintro ⟨pat, hpat, hmem⟩
    have hwp := hw pat hpat
    by_cases hs : endsWithSlash pat = true
    · rw [if_pos hs] at hmem
      rw [splitOnChar_no_sep '/' _ hwp.2.1] at hmem
      rw [mem_rglob_filter_map] at hmem
      obtain ⟨hne, _, hdir, hglob⟩ := hmem
      exact ⟨hne, pat, hpat, Or.inl ⟨hs, hdir, hglob⟩⟩
    · have hs' : endsWithSlash pat = false := by
        revert hs
        cases endsWithSlash pat <;> simp
      obtain ⟨hw1, hw2, hw3⟩ := hwp
      rw [rstripSlash_no_slash pat hs'] at hw2
      rw [if_neg hs] at hmem
      rw [pyReplace_star] at hmem
      rw [splitOnChar_no_sep '/' _ hw2] at hmem
      rw [mem_rglob_filter_map] at hmem
      obtain ⟨hne, _, hfile, hglob⟩ := hmem
      exact ⟨hne, pat, hpat, Or.inr ⟨hs', hfile, hglob⟩⟩
  · rintro ⟨hne, pat, hpat, hcase⟩
    have hwp := hw pat hpat
    refine ⟨pat, hpat, ?_⟩
    rcases hcase with ⟨hs, hdir, hglob⟩ | ⟨hs, hfile, hglob⟩
    · rw [if_pos hs]
      rw [splitOnChar_no_sep '/' _ hwp.2.1]
      rw [mem_rglob_filter_map]
      exact ⟨hne, fsFind_mem_paths (fsIsDir_eq_true_iff.mp hdir), hdir, hglob⟩
    · have hsne : ¬ (endsWithSlash pat = true) := by
        rw [hs]
        simp
      obtain ⟨hw1, hw2, hw3⟩ := hwp
      rw [rstripSlash_no_slash pat hs] at hw2
      rw [if_neg hsne]
      rw [pyReplace_star]
      rw [splitOnChar_no_sep '/' _ hw2]
      rw [mem_rglob_filter_map]
      obtain ⟨cth, hforc⟩ := fsIsFile_eq_true_iff.mp hfile
      exact ⟨hne, fsFind_mem_paths hforc, hfile, hglob⟩

/-- A lesson record for the matcher fixtures. -/
def lC6 : Lesson :=
  { folder := "L1", name := "intro", number := "1_1", source_repo := "repoA",
    added_date := "2024-01-01", last_synced := "2024-01-01",
    description := "Intro", module := "1", has_custom_changes := true }

/-- A lesson directory with a preserved file and a preserved directory. -/
def fsC6 : FS :=
  [ (["lessons"], Node.dir),
    (["lessons", "L1"], Node.dir),
    (["lessons", "L1", "notes.local.md"], Node.file "N"),
    (["lessons", "L1", "custom-stuff"], Node.dir),
    (["lessons", "L1", "custom-stuff", "a.md"], Node.file "A") ]

/-- A pattern set with one file pattern and one directory pattern. -/
def patsC6 : List String := ["*.local.*", "custom-*/"]

/-- Witness for C6 at a concrete filesystem, pattern set and relative path. -/
theorem check_custom_changes_spec_witness :
    (["notes.local.md"] ∈ check_custom_changes fsC6 patsC6 lC6 ↔
      ((["notes.local.md"] : FPath) ≠ [] ∧ ∃ pat ∈ patsC6,
        ((endsWithSlash pat = true ∧ fsIsDir fsC6 (lC6.path ++ ["notes.local.md"]) = true ∧
            globMatch (rstripSlash pat).toList (basename ["notes.local.md"]).toList = true) ∨
         (endsWithSlash pat = false ∧ fsIsFile fsC6 (lC6.path ++ ["notes.local.md"]) = true ∧
            globMatch pat.toList (basename ["notes.local.md"]).toList = true)))) :=
  check_custom_changes_spec fsC6 patsC6 lC6 ["notes.local.md"] (by decide) (by decide)

/-- C7: when the lesson's root directory does not exist, the Preservation
Matcher returns the empty result instead of raising. -/
theorem check_custom_changes_missing_root (fs : FS) (patterns : List String) (l : Lesson)
    (h : lessonExists fs l = false) :
    check_custom_changes fs patterns l = [] := by
  unfold check_custom_changes
  rw [h]
  rfl

/-- Witness for C7 on an empty filesystem. -/
theorem check_custom_changes_missing_root_witness :
    check_custom_changes [] ["*.local.*"] lC6 = [] :=
  check_custom_changes_missing_root [] ["*.local.*"] lC6 rfl

/-- C8: the Preservation Matcher is deterministic — two runs against the
same pattern set and the same filesystem state (no intervening mutation)
return the same result; the matcher itself performs no mutation, being a
pure function of the filesystem. -/
theorem check_custom_changes_deterministic (fs : FS) (patterns : List String)
    (l : Lesson) (r1 r2 : List FPath)
    (h1 : r1 = check_custom_changes fs patterns l)
    (h2 : r2 = check_custom_changes fs patterns l) :
    r1 = r2 :=
  h1.trans h2.symm

/-- The first matcher run of the determinism witness. -/
def runOnce : List FPath := check_custom_changes fsC6 patsC6 lC6

/-- The second matcher run of the determinism witness. -/
def runAgain : List FPath := check_custom_changes fsC6 patsC6 lC6

/-- Witness for C8 at a concrete filesystem and pattern set. -/
theorem check_custom_changes_deterministic_witness : runOnce = runAgain :=
  check_custom_changes_deterministic fsC6 patsC6 lC6 runOnce runAgain rfl rfl

end Dsai
